import Mathlib

/-!
Shallow embedding of the gacha draw-transaction engine and the event
accumulation/dispatch pipeline (TypeScript sources: Player.ts, GachaItem.ts,
Rarity.ts, gacha-system-demo.ts, EventDispatcher.ts), with theorems checking
the natural-language specification against the code.
-/

namespace Gacha

/-- Rarity value object (Rarity.ts). Only the five valid rarities exist. -/
inductive Rarity where
  | N
  | R
  | SR
  | SSR
  | UR
deriving DecidableEq, Repr

/-- GachaItem entity (GachaItem.ts): id, name, rarity, description. -/
structure GachaItem where
  id : String
  name : String
  rarity : Rarity
  description : String := ""
deriving DecidableEq, Repr

/-- GachaItem.equals: entity identity is decided by id only. -/
def GachaItem.equalsItem (a b : GachaItem) : Bool :=
  a.id == b.id

/-- Domain events (CurrencySpentEvent.ts, GachaExecutedEvent.ts,
ItemObtainedEvent.ts), as a closed tagged union of the payload fields the
code sets. The opaque eventId and timestamp are irrelevant to the claims. -/
inductive DomainEvent where
  | currencySpent (playerId : String) (amount : Int) (remainingBalance : Int)
      (spendingReason : String)
  | gachaExecuted (playerId : String) (gachaCost : Int) (gachaType : String)
  | itemObtained (playerId : String) (itemId : String) (itemName : String)
      (rarity : Rarity) (isFirstTime : Bool)
deriving DecidableEq, Repr

/-- DomainEvent.getEventName, used by the dispatcher to look up handlers. -/
def DomainEvent.getEventName : DomainEvent → String
  | .currencySpent _ _ _ _ => "CurrencySpent"
  | .gachaExecuted _ _ _ => "GachaExecuted"
  | .itemObtained _ _ _ _ _ => "ItemObtained"

/-- Player entity state (Player.ts): id, name, currency balance, inventory,
and the pending domain-event queue. -/
structure Player where
  id : String
  playerName : String
  gachaCurrency : Int
  inventory : List GachaItem
  events : List DomainEvent
deriving DecidableEq, Repr

/-- Player.hasItem: some inventory member equals (by id) the given item. -/
def Player.hasItem (p : Player) (item : GachaItem) : Bool :=
  p.inventory.any (fun inventoryItem => inventoryItem.equalsItem item)

/-- Player.addEvent: push the event onto the pending queue. -/
def Player.addEvent (p : Player) (e : DomainEvent) : Player :=
  { p with events := p.events ++ [e] }

/-- Player.getEvents: a copy of the pending queue. -/
def Player.getEvents (p : Player) : List DomainEvent :=
  p.events

/-- Player.clearEvents: reset the pending queue to empty. -/
def Player.clearEvents (p : Player) : Player :=
  { p with events := [] }

/-- Player.addItem: throws when the item is already owned, otherwise pushes
it onto the inventory. A thrown error carries the (unchanged) player state,
mirroring that a TypeScript throw does not roll anything back. -/
def Player.addItem (p : Player) (item : GachaItem) :
    Except (String × Player) Player :=
  if p.hasItem item then
    .error ("item already owned", p)
  else
    .ok { p with inventory := p.inventory ++ [item] }

/-- Player.removeItem: throws when the item is not owned; otherwise filters
it out of the inventory, then re-checks that the length shrank. -/
def Player.removeItem (p : Player) (item : GachaItem) :
    Except (String × Player) Player :=
  if !(p.hasItem item) then
    .error ("item not owned", p)
  else
    let initialLength := p.inventory.length
    let newInventory :=
      p.inventory.filter (fun inventoryItem => !(inventoryItem.equalsItem item))
    if newInventory.length == initialLength then
      .error ("item removal failed", { p with inventory := newInventory })
    else
      .ok { p with inventory := newInventory }

/-- Player.addCurrency: throws on a negative amount, otherwise credits. -/
def Player.addCurrency (p : Player) (amount : Int) :
    Except (String × Player) Player :=
  if amount < 0 then
    .error ("amount must be nonnegative", p)
  else
    .ok { p with gachaCurrency := p.gachaCurrency + amount }

/-- Player.spendCurrency: throws on a negative amount, throws when the
balance is below the amount, otherwise debits and appends a CurrencySpent
event carrying the post-debit balance and the reason. -/
def Player.spendCurrency (p : Player) (amount : Int) (reason : String) :
    Except (String × Player) Player :=
  if amount < 0 then
    .error ("amount must be nonnegative", p)
  else if p.gachaCurrency < amount then
    .error ("insufficient balance", p)
  else
    let debited := { p with gachaCurrency := p.gachaCurrency - amount }
    .ok (debited.addEvent
      (.currencySpent debited.id amount debited.gachaCurrency reason))

/-- Player.canAffordGacha: balance at least the cost and cost nonnegative. -/
def Player.canAffordGacha (p : Player) (cost : Int) : Bool :=
  decide (cost ≤ p.gachaCurrency) && decide (0 ≤ cost)

/-- GachaService.calculateSellPrice: the fixed salvage value per rarity. -/
def calculateSellPrice : Rarity → Int
  | .N => 10
  | .R => 50
  | .SR => 200
  | .SSR => 1000
  | .UR => 5000

/-- GachaService.executeSingleGacha, with the sampled item passed in (the
source obtains it from Math.random via the machine) and the hard-coded
gacha cost of the source generalised to a parameter, instantiated at 100
by executeSingleGacha below. Steps, in source order: affordability check
(throws before any mutation), spendCurrency (appends CurrencySpent),
append GachaExecuted, dedup check, addCurrency of the salvage price on a
duplicate or addItem on a first-time item, append ItemObtained. -/
def executeGacha (p : Player) (drawnItem : GachaItem) (gachaCost : Int) :
    Except (String × Player) (Player × GachaItem) :=
  if !(p.canAffordGacha gachaCost) then
    .error ("insufficient balance", p)
  else
    match p.spendCurrency gachaCost "gacha" with
    | .error e => .error e
    | .ok p1 =>
      let p2 := p1.addEvent (.gachaExecuted p1.id gachaCost "single")
      let isFirstTime := !(p2.hasItem drawnItem)
      let granted : Except (String × Player) Player :=
        if !isFirstTime then
          p2.addCurrency (calculateSellPrice drawnItem.rarity)
        else
          p2.addItem drawnItem
      match granted with
      | .error e => .error e
      | .ok p3 =>
        let p4 := p3.addEvent
          (.itemObtained p3.id drawnItem.id drawnItem.name
            drawnItem.rarity isFirstTime)
        .ok (p4, drawnItem)

/-- The source entry point: executeGacha at the hard-coded cost 100. -/
def executeSingleGacha (p : Player) (drawnItem : GachaItem) :
    Except (String × Player) (Player × GachaItem) :=
  executeGacha p drawnItem 100

/-- An entry of SimpleGachaMachine.gachaPool: id, name, rarity, weight.
Weights are JavaScript numbers; we embed them as rationals. -/
structure PoolItem where
  id : String
  name : String
  rarity : Rarity
  weight : ℚ
deriving DecidableEq, Repr

/-- Total weight of a pool: the reduce over weights in SimpleGachaMachine. -/
def totalWeight (pool : List PoolItem) : ℚ :=
  (pool.map (fun poolItem => poolItem.weight)).sum

/-- The accumulating loop of SimpleGachaMachine.draw: add each weight to
the running currentWeight and return the first item whose cumulative
weight is at least the random value. -/
def drawLoop (randomValue : ℚ) : List PoolItem → ℚ → Option PoolItem
  | [], _ => none
  | poolItem :: rest, currentWeight =>
    let nextWeight := currentWeight + poolItem.weight
    if randomValue ≤ nextWeight then
      some poolItem
    else
      drawLoop randomValue rest nextWeight

/-- SimpleGachaMachine.draw with the random value passed in: run the loop
from 0; when the loop falls through, fall back to gachaPool[0] (none on an
empty pool, where the source would fault on undefined). -/
def machineDraw (pool : List PoolItem) (randomValue : ℚ) : Option PoolItem :=
  match drawLoop randomValue pool 0 with
  | some poolItem => some poolItem
  | none => pool.head?

/-- Cumulative weight through index i: the sum of the first i+1 weights. -/
def cumulativeWeight (pool : List PoolItem) (i : ℕ) : ℚ :=
  ((pool.take (i + 1)).map (fun poolItem => poolItem.weight)).sum

/-- Modelled from the spec wording for comparison: the index of the first
entry, in catalog insertion order, whose cumulative weight is at least the
draw value. -/
def specFirstMatchIdx (pool : List PoolItem) (r : ℚ) : Option ℕ :=
  (List.range pool.length).find? (fun i => decide (r ≤ cumulativeWeight pool i))

/-- Modelled from the spec wording for comparison: return the first entry
whose cumulative weight satisfies draw ≤ cumulative; if no entry matches,
fall back deterministically to the first catalog entry. -/
def specSample (pool : List PoolItem) (r : ℚ) : Option PoolItem :=
  match specFirstMatchIdx pool r with
  | some i => pool[i]?
  | none => pool.head?

/-- An event handler outcome: handlers are external collaborators, so we
model one as a function from the event to success or a thrown error. -/
abbrev Handler : Type :=
  DomainEvent → Except String Unit

/-- EventDispatcher state: the registry mapping event names to the list of
subscribed handlers, in registration order. -/
structure EventDispatcher where
  handlers : List (String × List Handler)

/-- The handler list the dispatcher holds for an event name (empty when no
subscription exists). -/
def EventDispatcher.handlersFor (d : EventDispatcher) (eventName : String) :
    List Handler :=
  match d.handlers.find? (fun entry => entry.1 == eventName) with
  | some entry => entry.2
  | none => []

/-- EventDispatcher.dispatch: run every handler subscribed to the event
name; zero handlers is a no-op success; any handler failure fails the
dispatch (the first failing handler in registration order is surfaced). -/
def EventDispatcher.dispatch (d : EventDispatcher) (event : DomainEvent) :
    Except String Unit :=
  (d.handlersFor event.getEventName).foldl
    (fun acc h =>
      match acc with
      | .error e => .error e
      | .ok _ => h event)
    (.ok ())

/-- EventDispatcher.dispatchAll: deliver events one at a time, aborting the
rest of the batch at the first failed dispatch. -/
def EventDispatcher.dispatchAll (d : EventDispatcher) :
    List DomainEvent → Except String Unit
  | [] => .ok ()
  | event :: rest =>
    match d.dispatch event with
    | .error e => .error e
    | .ok _ => d.dispatchAll rest

/-- EventDispatcher.dispatchEntityEvents: getEvents, early return on an
empty queue, dispatchAll, and clearEvents only after the whole batch
succeeded; a dispatch error is rethrown carrying the untouched entity. -/
def EventDispatcher.dispatchEntityEvents (d : EventDispatcher) (p : Player) :
    Except (String × Player) Player :=
  let events := p.getEvents
  if events.length == 0 then
    .ok p
  else
    match d.dispatchAll events with
    | .ok _ => .ok p.clearEvents
    | .error e => .error (e, p)

/-- The getEvents-then-clearEvents drain of dispatchEntityEvents, with a
list of events appended between the two calls (the window in which the
batch is being dispatched): returns the drained batch and the entity state
after clearEvents. -/
def drainSequence (p : Player) (mid : List DomainEvent) :
    List DomainEvent × Player :=
  let batch := p.getEvents
  let appended := mid.foldl Player.addEvent p
  (batch, appended.clearEvents)

/-- A balance-touching call in a debit/credit sequence. -/
inductive BalanceOp where
  | spend (amount : Int) (reason : String)
  | add (amount : Int)
deriving Repr

/-- Apply one balance op through the player's own method. -/
def applyBalanceOp (p : Player) : BalanceOp → Except (String × Player) Player
  | .spend amount reason => p.spendCurrency amount reason
  | .add amount => p.addCurrency amount

/-- Run a sequence of debit/credit calls; the run succeeds only when every
call respects its preconditions (none throws). -/
def runBalanceOps (p : Player) : List BalanceOp → Except (String × Player) Player
  | [] => .ok p
  | op :: rest =>
    match applyBalanceOp p op with
    | .error e => .error e
    | .ok p1 => runBalanceOps p1 rest

/-! ### Shared helper lemmas -/

theorem canAffordGacha_iff (p : Player) (cost : Int) :
    p.canAffordGacha cost = true ↔ 0 ≤ cost ∧ cost ≤ p.gachaCurrency := by
  simp [Player.canAffordGacha, and_comm]

theorem sellPrice_nonneg (r : Rarity) : 0 ≤ calculateSellPrice r := by
  cases r <;> decide

theorem hasItem_mk (i n : String) (c : Int) (inv : List GachaItem)
    (evs : List DomainEvent) (item : GachaItem) :
    Player.hasItem ⟨i, n, c, inv, evs⟩ item
      = inv.any (fun inventoryItem => inventoryItem.equalsItem item) := rfl

/-- Success shape of executeGacha: when the player can afford the cost, the
whole transaction succeeds and produces exactly this state. -/
theorem executeGacha_ok_shape (p : Player) (item : GachaItem) (cost : Int)
    (h : p.canAffordGacha cost = true) :
    executeGacha p item cost =
      .ok
        ({ id := p.id, playerName := p.playerName,
           gachaCurrency := p.gachaCurrency - cost +
             (if p.hasItem item then calculateSellPrice item.rarity else 0),
           inventory := p.inventory ++ (if p.hasItem item then [] else [item]),
           events := p.events ++
             [.currencySpent p.id cost (p.gachaCurrency - cost) "gacha",
              .gachaExecuted p.id cost "single",
              .itemObtained p.id item.id item.name item.rarity
                (!p.hasItem item)] },
         item) := by
  obtain ⟨hc0, hcb⟩ := (canAffordGacha_iff p cost).mp h
  have h1 : ¬(cost < 0) := by omega
  have h2 : ¬(p.gachaCurrency < cost) := by omega
  have h3 : ¬(calculateSellPrice item.rarity < 0) := by
    have := sellPrice_nonneg item.rarity
    omega
  cases hp : p.hasItem item with
  | true =>
    have hpinv : p.inventory.any
        (fun inventoryItem => inventoryItem.equalsItem item) = true := hp
    simp [executeGacha, h, Player.spendCurrency, h1, h2, Player.addEvent,
      hasItem_mk, hpinv, Player.addCurrency, h3, hp]
  | false =>
    have hpinv : p.inventory.any
        (fun inventoryItem => inventoryItem.equalsItem item) = false := hp
    simp [executeGacha, h, Player.spendCurrency, h1, h2, Player.addEvent,
      hasItem_mk, hpinv, Player.addItem, hp]

/-- Failure shape of executeGacha: when the player cannot afford the cost,
the transaction throws the affordability error with the untouched state. -/
theorem executeGacha_error_shape (p : Player) (item : GachaItem) (cost : Int)
    (h : p.canAffordGacha cost = false) :
    executeGacha p item cost = .error ("insufficient balance", p) := by
  simp [executeGacha, h]

theorem canAffordGacha_eq_false (p : Player) (cost : Int) :
    p.canAffordGacha cost = false ↔ cost < 0 ∨ p.gachaCurrency < cost := by
  simp [Player.canAffordGacha]
  omega

/-- Success shape of spendCurrency: the debit and the appended event. -/
theorem spendCurrency_ok_shape (p : Player) (amount : Int) (reason : String)
    (h0 : 0 ≤ amount) (h1 : amount ≤ p.gachaCurrency) :
    p.spendCurrency amount reason =
      .ok { p with
              gachaCurrency := p.gachaCurrency - amount,
              events := p.events ++
                [.currencySpent p.id amount (p.gachaCurrency - amount)
                  reason] } := by
  have hn : ¬(amount < 0) := by omega
  have hb : ¬(p.gachaCurrency < amount) := by omega
  simp [Player.spendCurrency, hn, hb, Player.addEvent]

/-- Inversion for a successful spendCurrency call. -/
theorem spendCurrency_ok_inv (p q : Player) (amount : Int) (reason : String)
    (h : p.spendCurrency amount reason = .ok q) :
    0 ≤ amount ∧ amount ≤ p.gachaCurrency ∧
      q.gachaCurrency = p.gachaCurrency - amount := by
  by_cases hn : amount < 0
  · simp [Player.spendCurrency, hn] at h
  · by_cases hb : p.gachaCurrency < amount
    · simp [Player.spendCurrency, hn, hb] at h
    · have := spendCurrency_ok_shape p amount reason (by omega) (by omega)
      rw [this] at h
      cases h
      constructor
      · omega
      constructor
      · omega
      · rfl

/-- Inversion for a successful addCurrency call. -/
theorem addCurrency_ok_inv (p q : Player) (amount : Int)
    (h : p.addCurrency amount = .ok q) :
    0 ≤ amount ∧ q.gachaCurrency = p.gachaCurrency + amount := by
  by_cases hn : amount < 0
  · simp [Player.addCurrency, hn] at h
  · simp [Player.addCurrency, hn] at h
    constructor
    · omega
    · rw [← h]

/-- The balance never goes negative across a successful op sequence. -/
theorem runBalanceOps_nonneg (ops : List BalanceOp) :
    ∀ p q : Player, 0 ≤ p.gachaCurrency → runBalanceOps p ops = .ok q →
      0 ≤ q.gachaCurrency := by
  induction ops with
  | nil =>
    intro p q h0 hrun
    simp [runBalanceOps] at hrun
    rw [← hrun]
    exact h0
  | cons op rest ih =>
    intro p q h0 hrun
    simp only [runBalanceOps] at hrun
    cases hstep : applyBalanceOp p op with
    | error e => rw [hstep] at hrun; cases hrun
    | ok p1 =>
      rw [hstep] at hrun
      have h1 : 0 ≤ p1.gachaCurrency := by
        cases op with
        | spend amount reason =>
          have := spendCurrency_ok_inv p p1 amount reason hstep
          omega
        | add amount =>
          have := addCurrency_ok_inv p p1 amount hstep
          omega
      exact ih p1 q h1 hrun

/-! ### Concrete fixtures used by witnesses and counterexamples -/

def demoItemUR : GachaItem :=
  { id := "sword_999", name := "GodSword", rarity := Rarity.UR,
    description := "" }

def freshPlayer : Player :=
  { id := "player_001", playerName := "Taro", gachaCurrency := 2000,
    inventory := [], events := [] }

def ownerPlayer : Player :=
  { id := "player_001", playerName := "Taro", gachaCurrency := 2000,
    inventory := [demoItemUR], events := [] }

def poorPlayer : Player :=
  { id := "player_002", playerName := "Hanako", gachaCurrency := 50,
    inventory := [], events := [] }

def midEvent : DomainEvent :=
  DomainEvent.currencySpent "player_001" 5 10 "shop"

def c1Events : List DomainEvent :=
  [DomainEvent.currencySpent "player_001" 100 1900 "gacha",
   DomainEvent.gachaExecuted "player_001" 100 "single",
   DomainEvent.itemObtained "player_001" "sword_999" "GodSword" Rarity.UR true]

/-! ### Claim theorems -/

/-- Claim C1, counterexample: on a concrete successful draw the appended
events are CurrencySpent, then GachaExecuted (the DrawExecuted event), then
ItemObtained (the RewardGranted event); the GachaExecuted event strictly
precedes the ItemObtained event, so the claimed order (RewardGranted before
DrawExecuted) is false. -/
theorem c1_claimed_order_counterexample :
    executeSingleGacha freshPlayer demoItemUR =
      Except.ok
        ({ id := "player_001", playerName := "Taro", gachaCurrency := 1900,
           inventory := [demoItemUR], events := c1Events }, demoItemUR)
    ∧ c1Events.indexOf (DomainEvent.gachaExecuted "player_001" 100 "single") <
        c1Events.indexOf (DomainEvent.itemObtained "player_001" "sword_999"
          "GodSword" Rarity.UR true) :=
  ⟨rfl, by decide⟩

/-- Claim C1 (amended): every successful executeSingleGacha appends exactly
three events to the pending queue, in the fixed order BalanceDebited
(CurrencySpent), then DrawExecuted (GachaExecuted), then RewardGranted
(ItemObtained). -/
theorem c1_transaction_event_order (p : Player) (item : GachaItem)
    (h : p.canAffordGacha 100 = true) :
    ∃ q : Player,
      executeSingleGacha p item = Except.ok (q, item) ∧
      q.events = p.events ++
        [DomainEvent.currencySpent p.id 100 (p.gachaCurrency - 100) "gacha",
         DomainEvent.gachaExecuted p.id 100 "single",
         DomainEvent.itemObtained p.id item.id item.name item.rarity
           (!p.hasItem item)] :=
  ⟨_, executeGacha_ok_shape p item 100 h, rfl⟩

/-- Claim C1, witness for the amended theorem at a concrete input. -/
theorem c1_transaction_event_order_witness :
    ∃ q : Player,
      executeSingleGacha freshPlayer demoItemUR =
        Except.ok (q, demoItemUR) ∧
      q.events = freshPlayer.events ++
        [DomainEvent.currencySpent freshPlayer.id 100
           (freshPlayer.gachaCurrency - 100) "gacha",
         DomainEvent.gachaExecuted freshPlayer.id 100 "single",
         DomainEvent.itemObtained freshPlayer.id demoItemUR.id demoItemUR.name
           demoItemUR.rarity (!freshPlayer.hasItem demoItemUR)] :=
  c1_transaction_event_order freshPlayer demoItemUR (by decide)

/-- Claim C3: a draw of an already-owned item leaves the inventory
unchanged, credits exactly the fixed salvage value of the tier on top of
the cost debit, still appends an ItemObtained event, and that event has
firstTime = false; the salvage table is N:10, R:50, SR:200, SSR:1000,
UR:5000. -/
theorem c3_duplicate_grant (p : Player) (item : GachaItem)
    (hOwned : p.hasItem item = true)
    (hAfford : p.canAffordGacha 100 = true) :
    ∃ q : Player,
      executeSingleGacha p item = Except.ok (q, item) ∧
      q.inventory = p.inventory ∧
      q.gachaCurrency =
        p.gachaCurrency - 100 + calculateSellPrice item.rarity ∧
      q.events = p.events ++
        [DomainEvent.currencySpent p.id 100 (p.gachaCurrency - 100) "gacha",
         DomainEvent.gachaExecuted p.id 100 "single",
         DomainEvent.itemObtained p.id item.id item.name item.rarity false] ∧
      calculateSellPrice Rarity.N = 10 ∧ calculateSellPrice Rarity.R = 50 ∧
      calculateSellPrice Rarity.SR = 200 ∧
      calculateSellPrice Rarity.SSR = 1000 ∧
      calculateSellPrice Rarity.UR = 5000 := by
  refine ⟨_, executeGacha_ok_shape p item 100 hAfford, ?_, ?_, ?_, by decide,
    by decide, by decide, by decide, by decide⟩
  · simp [hOwned]
  · simp [hOwned]
  · simp [hOwned]

/-- Claim C3, witness at a concrete duplicate draw. -/
theorem c3_duplicate_grant_witness :
    ∃ q : Player,
      executeSingleGacha ownerPlayer demoItemUR =
        Except.ok (q, demoItemUR) ∧
      q.inventory = ownerPlayer.inventory ∧
      q.gachaCurrency =
        ownerPlayer.gachaCurrency - 100 +
          calculateSellPrice demoItemUR.rarity ∧
      q.events = ownerPlayer.events ++
        [DomainEvent.currencySpent ownerPlayer.id 100
           (ownerPlayer.gachaCurrency - 100) "gacha",
         DomainEvent.gachaExecuted ownerPlayer.id 100 "single",
         DomainEvent.itemObtained ownerPlayer.id demoItemUR.id demoItemUR.name
           demoItemUR.rarity false] ∧
      calculateSellPrice Rarity.N = 10 ∧ calculateSellPrice Rarity.R = 50 ∧
      calculateSellPrice Rarity.SR = 200 ∧
      calculateSellPrice Rarity.SSR = 1000 ∧
      calculateSellPrice Rarity.UR = 5000 :=
  c3_duplicate_grant ownerPlayer demoItemUR (by decide) (by decide)

/-- Claim C5: a draw whose cost is negative or exceeds the balance throws
the affordability error before any mutation: the error carries the player
state unchanged, so balance, inventory and the pending-event queue are all
exactly as before the call. -/
theorem c5_affordability_guard (p : Player) (item : GachaItem) (cost : Int)
    (h : cost < 0 ∨ p.gachaCurrency < cost) :
    executeGacha p item cost = Except.error ("insufficient balance", p) :=
  executeGacha_error_shape p item cost
    ((canAffordGacha_eq_false p cost).mpr h)

/-- Claim C5, witness: a player with balance 50 cannot fund a cost-100
draw, and the raised error carries the untouched state. -/
theorem c5_affordability_guard_witness :
    executeGacha poorPlayer demoItemUR 100 =
      Except.error ("insufficient balance", poorPlayer) :=
  c5_affordability_guard poorPlayer demoItemUR 100 (by decide)

/-- Claim C4, counterexample: the core exposes Player.removeItem, and on a
player owning one item it succeeds and shrinks the inventory from one
member to none, so the inventory does not only grow. -/
theorem c4_remove_shrinks_counterexample :
    Player.removeItem ownerPlayer demoItemUR =
      Except.ok
        { id := "player_001", playerName := "Taro", gachaCurrency := 2000,
          inventory := [], events := [] } ∧
    ownerPlayer.inventory.length = 1 :=
  ⟨rfl, rfl⟩

/-- Claim C4 (amended): within the draw transaction the inventory never
shrinks — it is unchanged on a duplicate draw or on failure, and grows by
exactly the drawn item on a first-time grant; however, the separate
Player.removeItem operation can remove an owned member. -/
theorem c4_inventory_monotone (p : Player) (item : GachaItem) (cost : Int) :
    (∀ q it2, executeGacha p item cost = Except.ok (q, it2) →
        (p.hasItem item = true → q.inventory = p.inventory) ∧
        (p.hasItem item = false → q.inventory = p.inventory ++ [item])) ∧
    (∀ e q, executeGacha p item cost = Except.error (e, q) →
        q.inventory = p.inventory) := by
  cases hca : p.canAffordGacha cost with
  | false =>
    have herr := executeGacha_error_shape p item cost hca
    constructor
    · intro q it2 hq
      rw [herr] at hq
      cases hq
    · intro e q hq
      rw [herr] at hq
      cases hq
      rfl
  | true =>
    have hok := executeGacha_ok_shape p item cost hca
    constructor
    · intro q it2 hq
      rw [hok] at hq
      simp only [Except.ok.injEq, Prod.mk.injEq] at hq
      obtain ⟨hq1, hq2⟩ := hq
      subst hq1
      constructor
      · intro hp
        simp [hp]
      · intro hp
        simp [hp]
    · intro e q hq
      rw [hok] at hq
      cases hq

/-- Claim C4, witness: the duplicate draw on ownerPlayer leaves the
inventory unchanged. -/
theorem c4_inventory_monotone_witness :
    ({ id := "player_001", playerName := "Taro", gachaCurrency := 6900,
       inventory := [demoItemUR],
       events :=
         [DomainEvent.currencySpent "player_001" 100 1900 "gacha",
          DomainEvent.gachaExecuted "player_001" 100 "single",
          DomainEvent.itemObtained "player_001" "sword_999" "GodSword"
            Rarity.UR false] } : Player).inventory =
      ownerPlayer.inventory :=
  ((c4_inventory_monotone ownerPlayer demoItemUR 100).1 _ demoItemUR rfl).1
    rfl

/-- Claim C6: spendCurrency throws on a negative amount, throws on an
amount above the balance, on success debits exactly the amount and appends
a CurrencySpent event carrying the post-debit balance and the reason; and
any successful sequence of spendCurrency/addCurrency calls starting from a
nonnegative balance keeps the balance nonnegative. -/
theorem c6_debit_contract (p : Player) (amount : Int) (reason : String)
    (ops : List BalanceOp) :
    (amount < 0 →
      p.spendCurrency amount reason =
        Except.error ("amount must be nonnegative", p)) ∧
    (0 ≤ amount → p.gachaCurrency < amount →
      p.spendCurrency amount reason =
        Except.error ("insufficient balance", p)) ∧
    (0 ≤ amount → amount ≤ p.gachaCurrency →
      p.spendCurrency amount reason =
        Except.ok { p with
                      gachaCurrency := p.gachaCurrency - amount,
                      events := p.events ++
                        [DomainEvent.currencySpent p.id amount
                          (p.gachaCurrency - amount) reason] }) ∧
    (∀ q : Player, 0 ≤ p.gachaCurrency → runBalanceOps p ops = Except.ok q →
      0 ≤ q.gachaCurrency) := by
  refine ⟨?_, ?_, ?_, ?_⟩
  · intro h
    simp [Player.spendCurrency, h]
  · intro h0 h1
    have hn : ¬(amount < 0) := by omega
    simp [Player.spendCurrency, hn, h1]
  · intro h0 h1
    exact spendCurrency_ok_shape p amount reason h0 h1
  · intro q h0 hrun
    exact runBalanceOps_nonneg ops p q h0 hrun

/-- Claim C6, witness: a concrete successful debit of 100 from balance
2000. -/
theorem c6_debit_contract_witness :
    freshPlayer.spendCurrency 100 "gacha" =
      Except.ok { freshPlayer with
                    gachaCurrency := freshPlayer.gachaCurrency - 100,
                    events := freshPlayer.events ++
                      [DomainEvent.currencySpent freshPlayer.id 100
                        (freshPlayer.gachaCurrency - 100) "gacha"] } :=
  (c6_debit_contract freshPlayer 100 "gacha" []).2.2.1 (by decide) (by decide)

/-- Claim C9: canAffordGacha returns true exactly when spendCurrency of
that cost would succeed, both being equivalent to the cost being
nonnegative and at most the balance. -/
theorem c9_afford_iff_spend_succeeds (p : Player) (cost : Int)
    (reason : String) :
    (p.canAffordGacha cost = true ↔
      ∃ q : Player, p.spendCurrency cost reason = Except.ok q) ∧
    (p.canAffordGacha cost = true ↔ 0 ≤ cost ∧ cost ≤ p.gachaCurrency) := by
  constructor
  · constructor
    · intro h
      obtain ⟨h0, h1⟩ := (canAffordGacha_iff p cost).mp h
      exact ⟨_, spendCurrency_ok_shape p cost reason h0 h1⟩
    · rintro ⟨q, hq⟩
      have hinv := spendCurrency_ok_inv p q cost reason hq
      exact (canAffordGacha_iff p cost).mpr ⟨hinv.1, hinv.2.1⟩
  · exact canAffordGacha_iff p cost

/-- Claim C9, witness: a concrete affordable cost, with the successful
debit it predicts. -/
theorem c9_afford_iff_spend_succeeds_witness :
    ∃ q : Player, freshPlayer.spendCurrency 100 "gacha" = Except.ok q :=
  ((c9_afford_iff_spend_succeeds freshPlayer 100 "gacha").1).mp (by decide)

/-- Claim C10: addItem throws on an already-owned item id and leaves the
state untouched, adds the item exactly when no inventory member has an
equal id, and ownership is id-equality membership. -/
theorem c10_addItem_contract (p : Player) (item : GachaItem) :
    (p.hasItem item = true →
      p.addItem item = Except.error ("item already owned", p)) ∧
    (p.hasItem item = false →
      p.addItem item =
        Except.ok { p with inventory := p.inventory ++ [item] }) ∧
    (p.hasItem item = true ↔
      ∃ member ∈ p.inventory, member.id = item.id) := by
  refine ⟨?_, ?_, ?_⟩
  · intro h
    simp [Player.addItem, h]
  · intro h
    simp [Player.addItem, h]
  · simp [Player.hasItem, List.any_eq_true, GachaItem.equalsItem]

/-- Claim C10, witness: adding the already-owned item throws and carries
the unchanged player. -/
theorem c10_addItem_contract_witness :
    ownerPlayer.addItem demoItemUR =
      Except.error ("item already owned", ownerPlayer) :=
  (c10_addItem_contract ownerPlayer demoItemUR).1 rfl

/-- Claim C2, counterexample: an event appended between getEvents and
clearEvents is absent from the drained batch but is wiped by clearEvents,
so the next drain returns the empty queue and does not return it — the
event is lost, contradicting the claim. -/
theorem c2_lost_event_counterexample :
    ¬ midEvent ∈ (drainSequence freshPlayer [midEvent]).1 ∧
    ((drainSequence freshPlayer [midEvent]).2).getEvents = [] ∧
    ¬ midEvent ∈ ((drainSequence freshPlayer [midEvent]).2).getEvents := by
  decide

/-- Claim C2 (amended): the drained batch is exactly the queue as of
getEvents (no event of the queue is lost from or duplicated in the batch),
and an event appended after getEvents and before clearEvents is absent
from the batch; but clearEvents empties the whole queue, so such an event
is discarded rather than returned by the next drain. -/
theorem c2_drain_semantics (p : Player) (mid : List DomainEvent) :
    (drainSequence p mid).1 = p.getEvents ∧
    ((drainSequence p mid).2).getEvents = [] ∧
    (∀ e : DomainEvent, e ∈ mid → ¬ e ∈ p.getEvents →
      ¬ e ∈ (drainSequence p mid).1) :=
  ⟨rfl, rfl, fun _ _ hn => hn⟩

/-- Claim C2, witness for the amended drain semantics at a concrete
queue and interleaved append. -/
theorem c2_drain_semantics_witness :
    ¬ midEvent ∈ (drainSequence ownerPlayer [midEvent]).1 :=
  (c2_drain_semantics ownerPlayer [midEvent]).2.2 midEvent (by decide)
    (by decide)

def failingDispatcher : EventDispatcher :=
  { handlers := [("CurrencySpent", [fun _ => Except.error "handler boom"])] }

def queuedPlayer : Player :=
  { id := "player_001", playerName := "Taro", gachaCurrency := 2000,
    inventory := [], events := [midEvent] }

/-- Claim C8: dispatchEntityEvents clears the pending queue exactly when
the whole drained batch dispatched successfully; on any dispatch failure
the error propagates to the caller carrying the untouched entity, whose
queue is still the non-empty, non-cleared batch. -/
theorem c8_clear_iff_batch_success (d : EventDispatcher) (p : Player) :
    (∀ q : Player, d.dispatchEntityEvents p = Except.ok q →
        q.getEvents = [] ∧ d.dispatchAll p.getEvents = Except.ok ()) ∧
    (∀ (e : String) (q : Player),
        d.dispatchEntityEvents p = Except.error (e, q) →
        q = p ∧ d.dispatchAll p.getEvents = Except.error e ∧
          p.getEvents ≠ []) := by
  by_cases hemp : p.events = []
  · constructor
    · intro q hq
      simp [EventDispatcher.dispatchEntityEvents, Player.getEvents, hemp]
        at hq
      subst hq
      refine ⟨hemp, ?_⟩
      rw [Player.getEvents, hemp]
      rfl
    · intro e q hq
      simp [EventDispatcher.dispatchEntityEvents, Player.getEvents, hemp]
        at hq
  · have hlen : (p.events.length == 0) = false := by
      simp [List.length_eq_zero]
      exact hemp
    cases hd : d.dispatchAll p.events with
    | ok u =>
      cases u
      constructor
      · intro q hq
        simp [EventDispatcher.dispatchEntityEvents, Player.getEvents, hlen,
          hd] at hq
        subst hq
        exact ⟨rfl, hd⟩
      · intro e q hq
        simp [EventDispatcher.dispatchEntityEvents, Player.getEvents, hlen,
          hd] at hq
    | error e0 =>
      constructor
      · intro q hq
        simp [EventDispatcher.dispatchEntityEvents, Player.getEvents, hlen,
          hd] at hq
      · intro e q hq
        simp [EventDispatcher.dispatchEntityEvents, Player.getEvents, hlen,
          hd] at hq
        obtain ⟨hq1, hq2⟩ := hq
        subst hq1
        subst hq2
        exact ⟨rfl, hd, hemp⟩

/-- Claim C8, witness: a handler that throws makes dispatchEntityEvents
rethrow the error with the entity queue left non-cleared. -/
theorem c8_clear_iff_batch_success_witness :
    queuedPlayer = queuedPlayer ∧
    failingDispatcher.dispatchAll queuedPlayer.getEvents =
      Except.error "handler boom" ∧
    queuedPlayer.getEvents ≠ [] :=
  (c8_clear_iff_batch_success failingDispatcher queuedPlayer).2
    "handler boom" queuedPlayer rfl

theorem cumulativeWeight_cons_zero (x : PoolItem) (rest : List PoolItem) :
    cumulativeWeight (x :: rest) 0 = x.weight := by
  simp [cumulativeWeight]

theorem cumulativeWeight_cons_succ (x : PoolItem) (rest : List PoolItem)
    (i : ℕ) :
    cumulativeWeight (x :: rest) (i + 1) =
      x.weight + cumulativeWeight rest i := by
  simp [cumulativeWeight]

/-- The accumulating loop returns the entry at the first index whose
cumulative weight is at least the draw value (relative to the starting
accumulator), and nothing when no index qualifies. -/
theorem drawLoop_eq_find (r : ℚ) :
    ∀ (pool : List PoolItem) (c : ℚ),
      drawLoop r pool c =
        match (List.range pool.length).find?
            (fun i => decide (r - c ≤ cumulativeWeight pool i)) with
        | some i => pool[i]?
        | none => none := by
  intro pool
  induction pool with
  | nil =>
    intro c
    simp [drawLoop]
  | cons x rest ih =>
    intro c
    rw [List.length_cons, List.range_succ_eq_map, List.find?_cons]
    by_cases hle : r ≤ c + x.weight
    · have hx : r - c ≤ cumulativeWeight (x :: rest) 0 := by
        rw [cumulativeWeight_cons_zero]
        linarith
      simp [drawLoop, hle, hx]
    · have hx : ¬(r - c ≤ cumulativeWeight (x :: rest) 0) := by
        rw [cumulativeWeight_cons_zero]
        intro hcon
        exact hle (by linarith)
      have hpred :
          ((fun i => decide (r - c ≤ cumulativeWeight (x :: rest) i)) ∘
              Nat.succ) =
            (fun i =>
              decide (r - (c + x.weight) ≤ cumulativeWeight rest i)) := by
        funext i
        simp only [Function.comp]
        rw [decide_eq_decide, cumulativeWeight_cons_succ]
        constructor
        · intro h
          linarith
        · intro h
          linarith
      have hloop : drawLoop r (x :: rest) c = drawLoop r rest (c + x.weight) := by
        simp [drawLoop, hle]
      rw [hloop, ih (c + x.weight)]
      simp only [hx, decide_False, List.find?_map, hpred]
      cases hf : (List.range rest.length).find?
          (fun i => decide (r - (c + x.weight) ≤ cumulativeWeight rest i)) with
      | none => simp [hf]
      | some i => simp [hf]

/-- machineDraw refines the spec-worded sampler: first matching entry by
cumulative weight, falling back to the head of the catalog. -/
theorem machineDraw_eq_specSample (pool : List PoolItem) (r : ℚ) :
    machineDraw pool r = specSample pool r := by
  have hpred : (fun i => decide (r - 0 ≤ cumulativeWeight pool i))
      = (fun i => decide (r ≤ cumulativeWeight pool i)) := by
    funext i
    rw [decide_eq_decide]
    constructor
    · intro h
      linarith
    · intro h
      linarith
  have hloop := drawLoop_eq_find r pool 0
  rw [hpred] at hloop
  unfold machineDraw specSample specFirstMatchIdx
  rw [hloop]
  cases hf : (List.range pool.length).find?
      (fun i => decide (r ≤ cumulativeWeight pool i)) with
  | none => simp
  | some i =>
    have hi : i < pool.length :=
      List.mem_range.mp (List.mem_of_find?_eq_some hf)
    have hget : pool[i]? = some pool[i] := List.getElem?_eq_getElem hi
    simp [hget]

/-- A draw value below the (positive) total weight always matches some
index, so the fallback is unreachable in the specified input range. -/
theorem specFirstMatchIdx_isSome (pool : List PoolItem) (r : ℚ)
    (hpos : 0 < totalWeight pool) (hr : r < totalWeight pool) :
    (specFirstMatchIdx pool r).isSome = true := by
  have hne : pool ≠ [] := by
    intro h
    rw [h] at hpos
    simp [totalWeight] at hpos
  have hlen : 0 < pool.length := List.length_pos.mpr hne
  have hlast : cumulativeWeight pool (pool.length - 1) = totalWeight pool := by
    unfold cumulativeWeight totalWeight
    rw [Nat.sub_add_cancel hlen, List.take_length]
  unfold specFirstMatchIdx
  simp only [List.find?_isSome]
  refine ⟨pool.length - 1, List.mem_range.mpr (by omega), ?_⟩
  simp only [decide_eq_true_eq, hlast]
  linarith

/-- Claim C7: sampling equals the spec-worded first-match walk over the
catalog in insertion order, a match always exists for a draw in
[0, totalWeight) when the total weight is positive, and when no entry
matches the draw falls back deterministically to the first catalog
entry. -/
theorem c7_weighted_sampling (pool : List PoolItem) (r : ℚ) :
    machineDraw pool r = specSample pool r ∧
    (0 < totalWeight pool → 0 ≤ r → r < totalWeight pool →
      (specFirstMatchIdx pool r).isSome = true) ∧
    (specFirstMatchIdx pool r = none → machineDraw pool r = pool.head?) := by
  refine ⟨machineDraw_eq_specSample pool r, ?_, ?_⟩
  · intro h1 _ h3
    exact specFirstMatchIdx_isSome pool r h1 h3
  · intro h
    rw [machineDraw_eq_specSample, specSample, h]

def smallPool : List PoolItem :=
  [{ id := "potion_001", name := "Potion", rarity := Rarity.N, weight := 60 },
   { id := "sword_999", name := "GodSword", rarity := Rarity.UR,
     weight := 40 }]

/-- Claim C7, witness: on a two-entry pool of total weight 100 and draw
value 70, a matching entry exists. -/
theorem c7_weighted_sampling_witness :
    (specFirstMatchIdx smallPool 70).isSome = true :=
  (c7_weighted_sampling smallPool 70).2.1
    (by norm_num [totalWeight, smallPool])
    (by norm_num)
    (by norm_num [totalWeight, smallPool])

end Gacha
